import Mathlib

/-!
Verification of the plushie catalog service (`app/main.py`, `app/auth.py`,
`app/models.py`) against its design document.

The relational store is modelled as an in-memory list of rows; SQLAlchemy
query chains (`filter`, `offset`, `limit`, `order_by`, `count`, `first`) are
embedded as the corresponding list operations.  SQL `ILIKE` is embedded with
its full pattern semantics (`%` matches any sequence, `_` any one character),
since the handlers interpolate user input into the pattern unescaped.
Python truthiness tests on optional parameters (`if q:`, `if min_year:`)
are embedded explicitly: `None`, the empty string, the empty list and the
integer zero are all falsy.
-/

namespace PlushDex

/-- A row of the `plushtable` table (`app/models.py`, class `PlushTable`). -/
structure PlushTable where
  id : Nat
  character : String
  variation : String
  set : String
  releaseyear : Int
deriving Repr, DecidableEq

/-- A row of the `users` table (`app/models.py`, class `User`). -/
structure User where
  id : Nat
  username : String
  hashed_password : String
deriving Repr, DecidableEq

/-- The request body of `POST /plushies/` (`app/main.py`, class `PlushBase`). -/
structure PlushBase where
  character : String
  variation : String
  set : String
  releaseyear : Int
deriving Repr, DecidableEq

/-- Python truthiness of an `Optional[str]`: `None` and `""` are falsy. -/
def strGiven : Option String → Bool
  | none => false
  | some s => !s.isEmpty

/-- Python truthiness of an `Optional[List[str]]`: `None` and `[]` are falsy. -/
def listGiven : Option (List String) → Bool
  | none => false
  | some l => !l.isEmpty

/-- Python truthiness of an `Optional[int]`: `None` and `0` are falsy. -/
def intGiven : Option Int → Bool
  | none => false
  | some n => n != 0

/-- Characters of a string folded to lower case; SQL `ILIKE` compares both
sides case-insensitively, embedded by lowering both sides. -/
def lowerChars (s : String) : List Char :=
  s.data.map Char.toLower

/-- Whether a `LIKE` pattern consists only of `%`: exactly the patterns that
match the empty string. -/
def allPercents : List Char → Bool
  | [] => true
  | p :: ps => p = '%' && allPercents ps

/-- One step of `LIKE` matching against a nonempty string `c :: t`, given the
matcher `prev` for the tail `t`: `%` either matches nothing (shorter pattern,
same string) or swallows `c`; `_` matches any `c`; a literal must equal `c`. -/
def likeStep (c : Char) (prev : List Char → Bool) : List Char → Bool
  | [] => false
  | p :: ps =>
    if p = '%' then likeStep c prev ps || prev (p :: ps)
    else (if p = '_' then true else p == c) && prev ps

/-- SQL `LIKE` pattern matching over characters, by recursion on the string:
`%` matches any sequence, `_` matches exactly one character, anything else
matches itself. -/
def likeAux : List Char → List Char → Bool
  | [], pat => allPercents pat
  | c :: t, pat => likeStep c (likeAux t) pat

/-- SQL `LIKE` pattern matching: does the string `s` match the pattern
`pat`? -/
def likeMatch (pat s : List Char) : Bool :=
  likeAux s pat

/-- Embedding of `column.ilike(f"%{q}%")`: the field matches the `ILIKE`
pattern `%q%`, both sides case-folded. -/
def ilikeContains (q field : String) : Bool :=
  likeMatch ('%' :: (lowerChars q ++ ['%'])) (lowerChars field)

/-- Refinement side, following the specification's words: `needle` occurs
case-insensitively as a contiguous substring of `hay`. -/
def occursCI (needle hay : String) : Prop :=
  lowerChars needle <:+: lowerChars hay

instance (needle hay : String) : Decidable (occursCI needle hay) :=
  inferInstanceAs (Decidable (lowerChars needle <:+: lowerChars hay))

/-- The string, after case folding, contains no `LIKE` wildcard character
(`%` or `_`); for such inputs the interpolated `ILIKE` pattern `%s%` is a
plain substring test. -/
def wildcardFree (s : String) : Prop :=
  ∀ c ∈ lowerChars s, c ≠ '%' ∧ c ≠ '_'

instance (s : String) : Decidable (wildcardFree s) :=
  inferInstanceAs (Decidable (∀ c ∈ lowerChars s, c ≠ '%' ∧ c ≠ '_'))

/-- The predicate accumulated by the query chain of `search_plushies`
(`app/main.py` lines 86-99).  Each `if` is Python truthiness. -/
def searchPred (q character variation set : Option String) (p : PlushTable) : Bool :=
  (if strGiven q then
      ilikeContains (q.getD "") p.character ||
      ilikeContains (q.getD "") p.variation ||
      ilikeContains (q.getD "") p.set
   else true)
  && (if strGiven character then ilikeContains (character.getD "") p.character else true)
  && (if strGiven variation then ilikeContains (variation.getD "") p.variation else true)
  && (if strGiven set then ilikeContains (set.getD "") p.set else true)

/-- The predicate accumulated by the query chain of `filter_plushies`
(`app/main.py` lines 132-143).  `in_` is exact membership; the year bounds
are guarded by Python truthiness (`if min_year:`), so a supplied `0` is
skipped. -/
def filterPred (characters variations sets : Option (List String))
    (min_year max_year : Option Int) (p : PlushTable) : Bool :=
  (if listGiven characters then (characters.getD []).contains p.character else true)
  && (if listGiven variations then (variations.getD []).contains p.variation else true)
  && (if listGiven sets then (sets.getD []).contains p.set else true)
  && (if intGiven min_year then decide (min_year.getD 0 ≤ p.releaseyear) else true)
  && (if intGiven max_year then decide (p.releaseyear ≤ max_year.getD 0) else true)

/-- `math.ceil(total_results / limit) if limit else 1` (`app/main.py`
lines 103 and 147, identical in both handlers).  Python's true division
followed by `math.ceil` is embedded as the exact rational ceiling. -/
def total_pages_of (total_results : Nat) (limit : Int) : Int :=
  if limit = 0 then 1 else ⌈(total_results : ℚ) / (limit : ℚ)⌉

/-- `(skip // limit) + 1 if limit else 1` (`app/main.py` lines 109 and 159).
Python `//` is floor division, embedded as `Int.fdiv`. -/
def current_page_of (skip limit : Int) : Int :=
  if limit = 0 then 1 else skip.fdiv limit + 1

/-- The envelope returned by `GET /search/`. -/
structure SearchEnvelope where
  skip : Int
  total_pages : Int
  current_page : Int
  limit : Int
  results : List PlushTable
deriving Repr, DecidableEq

/-- The echoed filter inputs in the envelope of `GET /filter/`. -/
structure FilterEcho where
  characters : Option (List String)
  variations : Option (List String)
  sets : Option (List String)
  min_year : Option Int
  max_year : Option Int
deriving Repr, DecidableEq

/-- The envelope returned by `GET /filter/`. -/
structure FilterEnvelope where
  filters : FilterEcho
  skip : Int
  total_pages : Int
  current_page : Int
  limit : Int
  results : List PlushTable
deriving Repr, DecidableEq

/-- `GET /search/` (`app/main.py`, `search_plushies`).  The store is the row
list `db` in insertion order; `count` is the length of the filtered rows and
`offset/limit` drop and take (negative offsets and limits are outside the
modelled range and clamp to `0`). -/
def search_plushies (db : List PlushTable) (q character variation set : Option String)
    (skip : Int := 0) (limit : Int := 10) : SearchEnvelope :=
  let rows := db.filter (searchPred q character variation set)
  { skip := skip
    total_pages := total_pages_of rows.length limit
    current_page := current_page_of skip limit
    limit := limit
    results := (rows.drop skip.toNat).take limit.toNat }

/-- `GET /filter/` (`app/main.py`, `filter_plushies`). -/
def filter_plushies (db : List PlushTable) (characters variations sets : Option (List String))
    (min_year max_year : Option Int) (skip : Int := 0) (limit : Int := 10) : FilterEnvelope :=
  let rows := db.filter (filterPred characters variations sets min_year max_year)
  { filters :=
      { characters := characters
        variations := variations
        sets := sets
        min_year := min_year
        max_year := max_year }
    skip := skip
    total_pages := total_pages_of rows.length limit
    current_page := current_page_of skip limit
    limit := limit
    results := (rows.drop skip.toNat).take limit.toNat }

/-- `order_by(PlushTable.id.asc())`: the rows sorted by identity ascending. -/
def sortById (db : List PlushTable) : List PlushTable :=
  db.mergeSort (fun a b => a.id ≤ b.id)

/-- `GET /plushies/all` (`app/main.py`, `get_all_plushies`). -/
def get_all_plushies (db : List PlushTable) : List PlushTable :=
  sortById db

/-- `GET /plushies/` (`app/main.py`, `get_plushies`): ordered listing with
`offset(skip).limit(limit)`; the modelled range of `skip`/`limit` is the
nonnegative integers. -/
def get_plushies (db : List PlushTable) (skip : Nat := 0) (limit : Nat := 10) :
    List PlushTable :=
  ((sortById db).drop skip).take limit

/-- `GET /plushies/{plush_id}` (`app/main.py`, `get_plush`): `first()` on the
rows whose `id` equals `plush_id`; `None` raises a 404. -/
def get_plush (db : List PlushTable) (plush_id : Nat) : Except (Nat × String) PlushTable :=
  match db.find? (fun p => p.id == plush_id) with
  | none => .error (404, "Plush not found!")
  | some p => .ok p

/-- Modelled from the spec: the autoincrement identity that the relational
store (an external collaborator, absent from the source) assigns to an
inserted row — "identity (unique, ordered, server-assigned integer)" —
embedded as one more than the largest identity present. -/
def nextId (db : List PlushTable) : Nat :=
  db.foldr (fun p m => max p.id m) 0 + 1

/-- `POST /plushies/` (`app/main.py`, `create_plush`): builds a row from the
request body, inserts and commits it, and returns the refreshed row. -/
def create_plush (db : List PlushTable) (plush : PlushBase) : List PlushTable × PlushTable :=
  let db_plush : PlushTable :=
    { id := nextId db
      character := plush.character
      variation := plush.variation
      set := plush.set
      releaseyear := plush.releaseyear }
  (db ++ [db_plush], db_plush)

/-- Modelled from the spec: the autoincrement identity the store assigns to
an inserted `users` row; embedded as one more than the largest identity. -/
def nextUserId (db : List User) : Nat :=
  db.foldr (fun u m => max u.id m) 0 + 1

/-- `POST /register` (`app/main.py`, `register`).  `get_password_hash` is the
external bcrypt hash (`app/auth.py`), abstracted as the parameter `hashFn`.
Returns the resulting user table together with the response. -/
def register (hashFn : String → String) (db : List User) (username password : String) :
    List User × Except (Nat × String) String :=
  match db.find? (fun u => u.username == username) with
  | some _ => (db, .error (400, "Username already registered."))
  | none =>
      let new_user : User :=
        { id := nextUserId db, username := username, hashed_password := hashFn password }
      (db ++ [new_user], .ok "User registered successfully!")

/-- The decoded payload of the JWT issued by `create_access_token`
(`app/auth.py`); the signature is produced by the external `jose` library
and is not modelled. -/
structure Token where
  sub : String
  exp : Int
deriving Repr, DecidableEq

/-- `create_access_token` (`app/auth.py`): expiry is the current UTC time
plus `expires_delta or timedelta(minutes=15)` — Python `or`, so both `None`
and a zero delta fall back to 15 minutes.  Times are in seconds. -/
def create_access_token (now : Int) (sub : String) (expires_delta : Option Int) : Token :=
  let expire := now + (if intGiven expires_delta then expires_delta.getD 0 else 15 * 60)
  { sub := sub, exp := expire }

/-- `POST /token` (`app/main.py`, `login`).  `verify_password` is the
external bcrypt verification (`app/auth.py`), abstracted as the parameter
`verify`.  On success returns the token payload and the token type. -/
def login (verify : String → String → Bool) (db : List User)
    (username password : String) (now : Int) : Except (Nat × String) (Token × String) :=
  match db.find? (fun u => u.username == username) with
  | none => .error (401, "Invalid username or password")
  | some user =>
      if verify password user.hashed_password then
        .ok (create_access_token now user.username (some (60 * 60)), "bearer")
      else
        .error (401, "Invalid username or password")

/-! ## Lemmas about `LIKE` matching -/

theorem likeMatch_nil_right (pat : List Char) : likeMatch pat [] = allPercents pat :=
  rfl

theorem likeMatch_nil_left (c : Char) (t : List Char) : likeMatch [] (c :: t) = false :=
  rfl

theorem likeMatch_cons_cons (p : Char) (ps : List Char) (c : Char) (t : List Char) :
    likeMatch (p :: ps) (c :: t)
      = if p = '%' then likeMatch ps (c :: t) || likeMatch (p :: ps) t
        else (if p = '_' then true else p == c) && likeMatch ps t :=
  rfl

theorem likeMatch_percent_cons (ps : List Char) (c : Char) (t : List Char) :
    likeMatch ('%' :: ps) (c :: t) = (likeMatch ps (c :: t) || likeMatch ('%' :: ps) t) := by
  rw [likeMatch_cons_cons, if_pos rfl]

theorem likeMatch_lit_cons {p : Char} (hp : p ≠ '%') (ps : List Char) (c : Char) (t : List Char) :
    likeMatch (p :: ps) (c :: t)
      = ((if p = '_' then true else p == c) && likeMatch ps t) := by
  rw [likeMatch_cons_cons, if_neg hp]

/-- A leading `%` matches an arbitrary prefix: the pattern `%ps` matches `s`
iff `ps` matches some suffix of `s`. -/
theorem likeMatch_percent_iff (ps s : List Char) :
    likeMatch ('%' :: ps) s = true ↔ ∃ t, t <:+ s ∧ likeMatch ps t = true := by
  induction s with
  | nil =>
    rw [likeMatch_nil_right]
    simp only [List.suffix_nil]
    constructor
    · intro h
      refine ⟨[], rfl, ?_⟩
      rw [likeMatch_nil_right]
      simpa [allPercents] using h
    · rintro ⟨t, rfl, hm⟩
      rw [likeMatch_nil_right] at hm
      simpa [allPercents] using hm
  | cons c t ih =>
    rw [likeMatch_percent_cons]
    simp only [Bool.or_eq_true, ih, List.suffix_cons_iff]
    constructor
    · rintro (h | ⟨u, hu, hm⟩)
      · exact ⟨c :: t, Or.inl rfl, h⟩
      · exact ⟨u, Or.inr hu, hm⟩
    · rintro ⟨u, (rfl | hu), hm⟩
      · exact Or.inl hm
      · exact Or.inr ⟨u, hu, hm⟩

/-- The pattern `%` alone matches every string. -/
theorem likeMatch_percent_all (s : List Char) : likeMatch ['%'] s = true := by
  induction s with
  | nil => rfl
  | cons c t ih =>
    rw [likeMatch_percent_cons, likeMatch_nil_left c t, ih]
    rfl

/-- A wildcard-free pattern followed by `%` matches exactly the strings it
is a prefix of. -/
theorem likeMatch_append_percent {ps : List Char} (h : ∀ p ∈ ps, p ≠ '%' ∧ p ≠ '_') :
    ∀ t : List Char, likeMatch (ps ++ ['%']) t = true ↔ ps <+: t := by
  induction ps with
  | nil =>
    intro t
    simp [likeMatch_percent_all t, List.nil_prefix]
  | cons p ps ih =>
    intro t
    have hp := h p (List.mem_cons_self p ps)
    cases t with
    | nil =>
      rw [List.cons_append, likeMatch_nil_right]
      simp [allPercents, hp.1, List.prefix_nil]
    | cons c u =>
      rw [List.cons_append, likeMatch_lit_cons hp.1, List.cons_prefix_cons]
      have ihu := ih (fun q hq => h q (List.mem_cons_of_mem p hq)) u
      rw [if_neg hp.2, Bool.and_eq_true, beq_iff_eq, ihu]

/-- For wildcard-free `q`, the interpolated pattern `%q%` used by the
handlers is exactly the case-insensitive substring test of the
specification. -/
theorem ilikeContains_iff_occursCI {q : String} (hq : wildcardFree q) (field : String) :
    ilikeContains q field = true ↔ occursCI q field := by
  unfold ilikeContains occursCI
  rw [likeMatch_percent_iff]
  constructor
  · rintro ⟨t, hts, hm⟩
    rw [likeMatch_append_percent hq] at hm
    exact List.infix_iff_prefix_suffix.mpr ⟨t, hm, hts⟩
  · intro h
    obtain ⟨t, hpre, hsuf⟩ := List.infix_iff_prefix_suffix.mp h
    exact ⟨t, hsuf, (likeMatch_append_percent hq t).mpr hpre⟩

/-! ## Python floor division and `math.ceil` of a true division -/

/-- `Int.fdiv` is invariant under negating both operands. -/
theorem fdiv_neg_neg (a b : ℤ) : a.fdiv b = (-a).fdiv (-b) := by
  rcases a with (_ | m) | m <;> rcases b with (_ | n) | n <;>
    first
      | rfl
      | exact congrArg Int.ofNat (Nat.div_zero _)
      | exact (congrArg Int.ofNat (Nat.div_zero _)).symm

/-- For a positive divisor, Python's `//` (`Int.fdiv`) is the rational
floor of the true quotient. -/
theorem fdiv_eq_floor_of_pos (a : ℤ) {b : ℤ} (hb : 0 < b) :
    a.fdiv b = ⌊(a : ℚ) / (b : ℚ)⌋ := by
  lift b to ℕ using hb.le with n
  rw [Int.fdiv_eq_ediv _ (Int.natCast_nonneg n)]
  rw [show ((n : ℤ) : ℚ) = (n : ℚ) by push_cast; ring]
  exact (Rat.floor_intCast_div_natCast a n).symm

/-- For any nonzero divisor, Python's `//` (`Int.fdiv`) is the rational
floor of the true quotient. -/
theorem fdiv_eq_floor (a : ℤ) {b : ℤ} (hb : b ≠ 0) :
    a.fdiv b = ⌊(a : ℚ) / (b : ℚ)⌋ := by
  rcases hb.lt_or_lt with h | h
  · rw [fdiv_neg_neg a b, fdiv_eq_floor_of_pos (-a) (by omega : (0:ℤ) < -b)]
    congr 1
    push_cast
    rw [neg_div_neg_eq]
  · exact fdiv_eq_floor_of_pos a h

/-! ## Characterizing the optional-parameter guards -/

/-- An individually supplied string filter (`if character: ... ilike ...`)
holds iff every supplied, nonempty value occurs as a case-insensitive
substring (empty strings are skipped by truthiness but occur trivially). -/
theorem strGuard_iff (o : Option String) (f : String)
    (ho : ∀ t, o = some t → wildcardFree t) :
    ((if strGiven o then ilikeContains (o.getD "") f else true) = true
      ↔ ∀ t, o = some t → occursCI t f) := by
  cases o with
  | none => simp [strGiven]
  | some x =>
    by_cases hx : x = ""
    · subst hx
      constructor
      · intro _ t ht
        cases ht
        exact List.nil_infix
      · intro _
        rfl
    · have hx' : strGiven (some x) = true := by
        simp only [strGiven, Bool.not_eq_true', Bool.eq_false_iff, ne_eq, String.isEmpty_iff]
        exact hx
      simp only [hx', if_true, Option.getD_some, Option.some.injEq]
      rw [ilikeContains_iff_occursCI (ho x rfl) f]
      constructor
      · intro h t ht
        exact ht ▸ h
      · intro h
        exact h x rfl

/-- The `q` guard of `search_plushies` holds iff every supplied, nonempty
`q` occurs case-insensitively in the character, the variation or the set. -/
theorem qGuard_iff (o : Option String) (p : PlushTable)
    (ho : ∀ t, o = some t → wildcardFree t) :
    ((if strGiven o then
        ilikeContains (o.getD "") p.character ||
        ilikeContains (o.getD "") p.variation ||
        ilikeContains (o.getD "") p.set
      else true) = true
      ↔ ∀ t, o = some t →
          (occursCI t p.character ∨ occursCI t p.variation ∨ occursCI t p.set)) := by
  cases o with
  | none => simp [strGiven]
  | some x =>
    by_cases hx : x = ""
    · subst hx
      constructor
      · intro _ t ht
        cases ht
        exact Or.inl List.nil_infix
      · intro _
        rfl
    · have hx' : strGiven (some x) = true := by
        simp only [strGiven, Bool.not_eq_true', Bool.eq_false_iff, ne_eq, String.isEmpty_iff]
        exact hx
      have hw := ho x rfl
      simp only [hx', if_true, Option.getD_some, Option.some.injEq, Bool.or_eq_true]
      rw [ilikeContains_iff_occursCI hw, ilikeContains_iff_occursCI hw,
        ilikeContains_iff_occursCI hw]
      constructor
      · intro h t ht
        exact ht ▸ or_assoc.mp h
      · intro h
        exact or_assoc.mpr (h x rfl)

/-- A supplied list filter (`if characters: ... in_ ...`) holds iff every
supplied, nonempty list contains the field value exactly (empty lists are
skipped by truthiness). -/
theorem listGuard_iff (o : Option (List String)) (x : String) :
    ((if listGiven o then (o.getD []).contains x else true) = true
      ↔ ∀ l, o = some l → l ≠ [] → x ∈ l) := by
  cases o with
  | none => simp [listGiven]
  | some l =>
    cases l with
    | nil => simp [listGiven]
    | cons a t =>
      simp [listGiven, List.contains, List.elem_eq_mem]

/-- A supplied year bound (`if min_year: ...`) holds iff every supplied,
nonzero bound satisfies the comparison (zero is skipped by truthiness). -/
theorem intGuard_iff (o : Option Int) (P : Int → Prop) [DecidablePred P] :
    ((if intGiven o then decide (P (o.getD 0)) else true) = true
      ↔ ∀ n, o = some n → n ≠ 0 → P n) := by
  cases o with
  | none => simp [intGiven]
  | some n =>
    by_cases hn : n = 0
    · subst hn
      simp [intGiven]
    · simp [intGiven, hn]

/-! ## Lookup helpers -/

/-- Every element's key is bounded by the `foldr max` over the list. -/
theorem le_foldr_max {α : Type} (f : α → Nat) (l : List α) (a : α) (ha : a ∈ l) :
    f a ≤ l.foldr (fun x m => max (f x) m) 0 := by
  induction l with
  | nil => cases ha
  | cons b t ih =>
    rcases List.mem_cons.mp ha with rfl | hat
    · exact le_max_left _ _
    · exact le_trans (ih hat) (le_max_right _ _)

/-- Identities of existing rows are strictly below `nextId`. -/
theorem id_lt_nextId (db : List PlushTable) (p : PlushTable) (hp : p ∈ db) :
    p.id < nextId db :=
  Nat.lt_succ_of_le (le_foldr_max PlushTable.id db p hp)

/-- If the predicate fails on all of `l₁`, `find?` over `l₁ ++ l₂` searches
`l₂`. -/
theorem find?_append_of_forall_neg {α : Type} {p : α → Bool} {l₁ : List α}
    (h : ∀ x ∈ l₁, p x = false) (l₂ : List α) :
    (l₁ ++ l₂).find? p = l₂.find? p := by
  induction l₁ with
  | nil => rfl
  | cons a t ih =>
    rw [List.cons_append, List.find?_cons_of_neg _ (by simp [h a (List.mem_cons_self a t)]),
      ih (fun x hx => h x (List.mem_cons_of_mem a hx))]

/-- With pairwise-distinct keys, `find?` on a key test returns exactly the
element carrying that key. -/
theorem find?_eq_some_of_nodup_map {α β : Type} [DecidableEq β] (key : α → β)
    (l : List α) (hnd : (l.map key).Nodup) (a : α) (ha : a ∈ l) :
    l.find? (fun x => key x == key a) = some a := by
  induction l with
  | nil => cases ha
  | cons b t ih =>
    rw [List.map_cons, List.nodup_cons] at hnd
    rcases List.mem_cons.mp ha with rfl | hat
    · exact List.find?_cons_of_pos t (by simp)
    · have hb : (key b == key a) = false := by
        simp only [beq_eq_false_iff_ne, ne_eq]
        intro he
        exact hnd.1 (he ▸ List.mem_map_of_mem key hat)
      rw [List.find?_cons_of_neg _ (by simp [hb]), ih hnd.2 hat]

/-! ## Claim C1 -/

/-- C1: evaluation at the failing input.  The claim says `filter(min_year=0)`
still applies the inclusive lower bound and excludes negative-year records,
and likewise `max_year=0` the upper bound.  The code guards both bounds with
Python truthiness (`if min_year:`), so a supplied `0` is silently skipped: a
record with `releaseyear = -3` survives `min_year=0`, and a record with
`releaseyear = 2005` survives `max_year=0`. -/
theorem c1_zero_bound_skipped :
    (filter_plushies [⟨1, "sonic", "classic", "base", -3⟩] none none none (some 0) none
        0 10).results = [⟨1, "sonic", "classic", "base", -3⟩] ∧
    (filter_plushies [⟨2, "tails", "classic", "base", 2005⟩] none none none none (some 0)
        0 10).results = [⟨2, "tails", "classic", "base", 2005⟩] :=
  ⟨rfl, rfl⟩

/-! ## Claim C2 -/

/-- `current_page_of` is the rational floor formula of the specification. -/
theorem current_page_eq_floor (skip limit : Int) :
    current_page_of skip limit
      = if limit = 0 then 1 else ⌊(skip : ℚ) / (limit : ℚ)⌋ + 1 := by
  unfold current_page_of
  by_cases h : limit = 0
  · simp [h]
  · rw [if_neg h, if_neg h, fdiv_eq_floor skip h]

/-- C2: in the envelopes of both `search` and `filter`,
`total_pages = ceil(total_matching / limit)` and
`current_page = floor(skip / limit) + 1` whenever `limit` is nonzero, both
are `1` when `limit = 0`, and in particular 25 matches with `limit = 10`
give 3 pages. -/
theorem c2_pagination_envelope (db : List PlushTable) (q c v s : Option String)
    (cs vs ss : Option (List String)) (mn mx : Option Int) (skip limit : Int) :
    (search_plushies db q c v s skip limit).total_pages
        = (if limit = 0 then 1
           else ⌈((db.filter (searchPred q c v s)).length : ℚ) / (limit : ℚ)⌉) ∧
    (search_plushies db q c v s skip limit).current_page
        = (if limit = 0 then 1 else ⌊(skip : ℚ) / (limit : ℚ)⌋ + 1) ∧
    (filter_plushies db cs vs ss mn mx skip limit).total_pages
        = (if limit = 0 then 1
           else ⌈((db.filter (filterPred cs vs ss mn mx)).length : ℚ) / (limit : ℚ)⌉) ∧
    (filter_plushies db cs vs ss mn mx skip limit).current_page
        = (if limit = 0 then 1 else ⌊(skip : ℚ) / (limit : ℚ)⌋ + 1) ∧
    total_pages_of 25 10 = 3 := by
  refine ⟨rfl, current_page_eq_floor skip limit, rfl, current_page_eq_floor skip limit, ?_⟩
  rw [total_pages_of]
  norm_num [Int.ceil_eq_iff]

/-! ## Claim C3 -/

/-- C3 counterexample: as stated, the claim fails for a `q` containing a
`LIKE` wildcard.  `q = "%"` is interpolated unescaped into the pattern
`%%%`, which matches every record, yet `"%"` does not occur as a substring
of any field of the record. -/
theorem c3_wildcard_counterexample :
    (⟨1, "abc", "", "", 2000⟩ : PlushTable) ∈
        ([⟨1, "abc", "", "", 2000⟩] : List PlushTable).filter
          (searchPred (some "%") none none none) ∧
      ¬ occursCI "%" "abc" ∧ ¬ occursCI "%" "" := by
  refine ⟨by decide, by decide, by decide⟩

/-- C3 (amended): for supplied search strings free of `LIKE` wildcards, an
item is matched iff every supplied `q` occurs case-insensitively as a
substring of its character OR variation OR set, AND each individually
supplied character/variation/set occurs in the respective field. -/
theorem c3_search_substring_semantics (db : List PlushTable)
    (q character variation set : Option String) (p : PlushTable)
    (hq : ∀ t, q = some t → wildcardFree t)
    (hc : ∀ t, character = some t → wildcardFree t)
    (hv : ∀ t, variation = some t → wildcardFree t)
    (hs : ∀ t, set = some t → wildcardFree t) :
    p ∈ db.filter (searchPred q character variation set) ↔
      p ∈ db ∧
      (∀ t, q = some t →
        (occursCI t p.character ∨ occursCI t p.variation ∨ occursCI t p.set)) ∧
      (∀ t, character = some t → occursCI t p.character) ∧
      (∀ t, variation = some t → occursCI t p.variation) ∧
      (∀ t, set = some t → occursCI t p.set) := by
  rw [List.mem_filter]
  unfold searchPred
  simp only [Bool.and_eq_true]
  rw [qGuard_iff q p hq, strGuard_iff character p.character hc,
    strGuard_iff variation p.variation hv, strGuard_iff set p.set hs]
  tauto

/-- C3 witness: the specification's own example, `search(q="abc")` matches a
record containing `"ABC"`. -/
theorem c3_search_witness :
    (⟨7, "zABCz", "", "", 1999⟩ : PlushTable) ∈
      ([⟨7, "zABCz", "", "", 1999⟩] : List PlushTable).filter
        (searchPred (some "abc") none none none) := by
  refine (c3_search_substring_semantics _ _ _ _ _ _ ?_ ?_ ?_ ?_).mpr ?_
  · intro t ht
    cases ht
    decide
  · intro t ht
    cases ht
  · intro t ht
    cases ht
  · intro t ht
    cases ht
  · refine ⟨by simp, ?_, ?_, ?_, ?_⟩
    · intro t ht
      cases ht
      exact Or.inl (by decide)
    · intro t ht
      cases ht
    · intro t ht
      cases ht
    · intro t ht
      cases ht

/-! ## Claim C4 -/

/-- C4 counterexample: as stated, the claim fails at a supplied empty list
(admitted although the field is in no list value) and at a supplied zero
year bound (a negative-year record is admitted past `min_year = 0`). -/
theorem c4_counterexample :
    ((⟨1, "amy", "v", "s", 2000⟩ : PlushTable) ∈
        ([⟨1, "amy", "v", "s", 2000⟩] : List PlushTable).filter
          (filterPred (some []) none none none none) ∧
      "amy" ∉ ([] : List String)) ∧
    ((⟨3, "amy", "v", "s", -1⟩ : PlushTable) ∈
        ([⟨3, "amy", "v", "s", -1⟩] : List PlushTable).filter
          (filterPred none none none (some 0) none) ∧
      ¬ ((0 : Int) ≤ -1)) := by
  decide

/-- C4 (amended): a supplied nonempty characters/variations/sets list admits
an item only if the field is exactly one of the listed values (empty lists
are treated as absent); supplied nonzero `min_year`/`max_year` are inclusive
bounds (zero is treated as absent); all enforced conditions are conjoined —
and the specification's example: `filter(min_year=2000, max_year=2010)`
includes `releaseyear = 2000` and excludes `releaseyear = 1999`. -/
theorem c4_filter_membership :
    (∀ (db : List PlushTable) (cs vs ss : Option (List String)) (mn mx : Option Int)
        (p : PlushTable),
      p ∈ db.filter (filterPred cs vs ss mn mx) ↔
        p ∈ db ∧
        (∀ l, cs = some l → l ≠ [] → p.character ∈ l) ∧
        (∀ l, vs = some l → l ≠ [] → p.variation ∈ l) ∧
        (∀ l, ss = some l → l ≠ [] → p.set ∈ l) ∧
        (∀ y, mn = some y → y ≠ 0 → y ≤ p.releaseyear) ∧
        (∀ y, mx = some y → y ≠ 0 → p.releaseyear ≤ y)) ∧
    (⟨2, "a", "b", "c", 2000⟩ : PlushTable) ∈
        ([⟨1, "a", "b", "c", 1999⟩, ⟨2, "a", "b", "c", 2000⟩] : List PlushTable).filter
          (filterPred none none none (some 2000) (some 2010)) ∧
    (⟨1, "a", "b", "c", 1999⟩ : PlushTable) ∉
        ([⟨1, "a", "b", "c", 1999⟩, ⟨2, "a", "b", "c", 2000⟩] : List PlushTable).filter
          (filterPred none none none (some 2000) (some 2010)) := by
  refine ⟨?_, by decide, by decide⟩
  intro db cs vs ss mn mx p
  rw [List.mem_filter]
  unfold filterPred
  simp only [Bool.and_eq_true]
  rw [listGuard_iff cs p.character, listGuard_iff vs p.variation, listGuard_iff ss p.set,
    intGuard_iff mn (fun n => n ≤ p.releaseyear), intGuard_iff mx (fun n => p.releaseyear ≤ n)]
  tauto

/-- Unfolding `login` when no credential record matches the username. -/
theorem login_eq_of_find_none {verify : String → String → Bool} {db : List User}
    {username password : String} {now : Int}
    (h : db.find? (fun u => u.username == username) = none) :
    login verify db username password now
      = .error (401, "Invalid username or password") := by
  unfold login
  rw [h]

/-- Unfolding `login` when a credential record matches the username. -/
theorem login_eq_of_find_some {verify : String → String → Bool} {db : List User}
    {username password : String} {now : Int} {u : User}
    (h : db.find? (fun x => x.username == username) = some u) :
    login verify db username password now
      = if verify password u.hashed_password = true
          then .ok (create_access_token now u.username (some (60 * 60)), "bearer")
          else .error (401, "Invalid username or password") := by
  unfold login
  rw [h]

/-- C4 witness: a combined filter — a nonempty list, both year bounds —
admits the record satisfying all conditions. -/
theorem c4_filter_witness :
    (⟨2, "a", "b", "c", 2000⟩ : PlushTable) ∈
      ([⟨1, "z", "b", "c", 2005⟩, ⟨2, "a", "b", "c", 2000⟩] : List PlushTable).filter
        (filterPred (some ["a"]) none none (some 2000) (some 2010)) := by
  refine (c4_filter_membership.1 _ _ _ _ _ _ _).mpr
    ⟨by decide, ?_, ?_, ?_, ?_, ?_⟩
  · intro l hl _
    cases hl
    decide
  · intro l hl _
    cases hl
  · intro l hl _
    cases hl
  · intro y hy _
    cases hy
    decide
  · intro y hy _
    cases hy
    decide

/-! ## Claim C5 -/

/-- C5: assuming pairwise-distinct usernames, login fails with
`401 "Invalid username or password"` exactly when the username has no
credential record or the password does not verify against the stored hash
(and then no token is issued, the result being an error); when credentials
verify, it returns a bearer token whose payload carries the username as
subject and an expiration of the current time plus 60 minutes. -/
theorem c5_login (verify : String → String → Bool) (db : List User)
    (username password : String) (now : Int)
    (hnd : (db.map User.username).Nodup) :
    (login verify db username password now
        = .error (401, "Invalid username or password") ↔
      (∀ u ∈ db, u.username ≠ username) ∨
      (∃ u ∈ db, u.username = username ∧ verify password u.hashed_password = false)) ∧
    (∀ u ∈ db, u.username = username → verify password u.hashed_password = true →
      login verify db username password now
        = .ok ({ sub := username, exp := now + 60 * 60 }, "bearer")) := by
  constructor
  · cases hfind : db.find? (fun u => u.username == username) with
    | none =>
      rw [login_eq_of_find_none hfind]
      refine iff_of_true rfl (Or.inl fun u hu he => ?_)
      exact (List.find?_eq_none.mp hfind u hu) (by simp [he])
    | some u =>
      rw [login_eq_of_find_some hfind]
      have hmem := List.mem_of_find?_eq_some hfind
      have hue : u.username = username := by simpa using List.find?_some hfind
      by_cases hv : verify password u.hashed_password = true
      · rw [if_pos hv]
        refine iff_of_false (fun h => Except.noConfusion h) ?_
        rintro (hall | ⟨w, hw, hwe, hwv⟩)
        · exact hall u hmem hue
        · have hwu : w = u :=
            List.inj_on_of_nodup_map hnd hw hmem (by rw [hwe, hue])
          rw [hwu, hv] at hwv
          cases hwv
      · rw [if_neg hv]
        exact iff_of_true rfl (Or.inr ⟨u, hmem, hue, by simpa using hv⟩)
  · intro u hu hue hv
    have hfind := find?_eq_some_of_nodup_map User.username db hnd u hu
    rw [hue] at hfind
    rw [login_eq_of_find_some hfind, if_pos hv, hue]
    rfl

/-- C5 witness: a concrete store with one credential; a wrong password is
rejected with no token, the right password yields the 60-minute bearer
token. -/
theorem c5_login_witness :
    login (fun p h => p == "opensesame" && h == "HASH") [⟨1, "amy", "HASH"⟩]
        "amy" "wrong" 1000
      = .error (401, "Invalid username or password") ∧
    login (fun p h => p == "opensesame" && h == "HASH") [⟨1, "amy", "HASH"⟩]
        "amy" "opensesame" 1000
      = .ok ({ sub := "amy", exp := 1000 + 60 * 60 }, "bearer") := by
  constructor
  · exact (c5_login (fun p h => p == "opensesame" && h == "HASH") [⟨1, "amy", "HASH"⟩]
      "amy" "wrong" 1000 (by decide)).1.mpr
      (Or.inr ⟨⟨1, "amy", "HASH"⟩, by decide, rfl, by decide⟩)
  · exact (c5_login (fun p h => p == "opensesame" && h == "HASH") [⟨1, "amy", "HASH"⟩]
      "amy" "opensesame" 1000 (by decide)).2
      ⟨1, "amy", "HASH"⟩ (by decide) rfl (by decide)

/-! ## Claim C6 -/

/-- C6: registering an already-taken username fails with
`400 "Username already registered."` and leaves the credential store
unchanged; registering a fresh username appends exactly one credential
holding the hash of the password, not the plaintext. -/
theorem c6_register (hashFn : String → String) (db : List User)
    (username password : String) :
    ((∃ u ∈ db, u.username = username) →
        register hashFn db username password
          = (db, .error (400, "Username already registered."))) ∧
    ((∀ u ∈ db, u.username ≠ username) →
        register hashFn db username password
          = (db ++ [{ id := nextUserId db, username := username,
                      hashed_password := hashFn password }],
             .ok "User registered successfully!")) := by
  constructor
  · rintro ⟨u, hu, hue⟩
    unfold register
    cases hfind : db.find? (fun x => x.username == username) with
    | none =>
      exact absurd (show (u.username == username) = true by simp [hue])
        (List.find?_eq_none.mp hfind u hu)
    | some w => rfl
  · intro h
    unfold register
    cases hfind : db.find? (fun x => x.username == username) with
    | none => rfl
    | some w =>
      exact absurd (by simpa using List.find?_some hfind)
        (h w (List.mem_of_find?_eq_some hfind))

/-- C6 witness: concrete duplicate and fresh registrations, the duplicate
leaving the store unchanged and the fresh one storing only the hash. -/
theorem c6_register_witness :
    register (fun s => String.append "H#" s) [⟨1, "amy", "H#pw"⟩] "amy" "other"
      = ([⟨1, "amy", "H#pw"⟩], .error (400, "Username already registered.")) ∧
    register (fun s => String.append "H#" s) [⟨1, "amy", "H#pw"⟩] "cream" "carrot"
      = ([⟨1, "amy", "H#pw"⟩, ⟨2, "cream", "H#carrot"⟩],
         .ok "User registered successfully!") := by
  constructor
  · exact (c6_register (fun s => String.append "H#" s) [⟨1, "amy", "H#pw"⟩]
      "amy" "other").1 ⟨⟨1, "amy", "H#pw"⟩, by decide, rfl⟩
  · exact (c6_register (fun s => String.append "H#" s) [⟨1, "amy", "H#pw"⟩]
      "cream" "carrot").2 (by decide)

/-! ## Claim C7 -/

/-- C7: the identity of a created record is distinct from every existing
identity, and getting that identity from the post-creation store returns a
record carrying exactly the created identity and the input's character,
variation, set and release year. -/
theorem c7_create_get_roundtrip (db : List PlushTable) (plush : PlushBase) :
    (∀ p ∈ db, p.id ≠ (create_plush db plush).2.id) ∧
    get_plush (create_plush db plush).1 ((create_plush db plush).2.id)
      = .ok { id := (create_plush db plush).2.id
              character := plush.character
              variation := plush.variation
              set := plush.set
              releaseyear := plush.releaseyear } := by
  constructor
  · intro p hp
    exact Nat.ne_of_lt (id_lt_nextId db p hp)
  · unfold get_plush
    have hnone : ∀ x ∈ db, (fun p => p.id == (create_plush db plush).2.id) x = false := by
      intro x hx
      simp only [beq_eq_false_iff_ne, ne_eq]
      exact Nat.ne_of_lt (id_lt_nextId db x hx)
    rw [show (create_plush db plush).1 = db ++ [(create_plush db plush).2] from rfl,
      find?_append_of_forall_neg hnone, List.find?_cons_of_pos _ (by simp)]
    rfl

/-- C7 witness: a concrete store whose existing identities are skipped by the
fresh one, and the created record is retrievable with the input's fields. -/
theorem c7_create_get_witness :
    (∀ p ∈ ([⟨4, "a", "b", "c", 1⟩] : List PlushTable), p.id
        ≠ (create_plush [⟨4, "a", "b", "c", 1⟩] ⟨"amy", "v", "s", 2003⟩).2.id) ∧
    get_plush (create_plush [⟨4, "a", "b", "c", 1⟩] ⟨"amy", "v", "s", 2003⟩).1
        ((create_plush [⟨4, "a", "b", "c", 1⟩] ⟨"amy", "v", "s", 2003⟩).2.id)
      = .ok { id := (create_plush [⟨4, "a", "b", "c", 1⟩] ⟨"amy", "v", "s", 2003⟩).2.id
              character := "amy", variation := "v", set := "s", releaseyear := 2003 } :=
  c7_create_get_roundtrip [⟨4, "a", "b", "c", 1⟩] ⟨"amy", "v", "s", 2003⟩

/-! ## Claim C8 -/

/-- C8: the paginated listing is the ascending-identity ordering of the
store with the first `skip` entries dropped and at most `limit` kept: its
length is `min limit (N - skip)`, so ten or more records give exactly ten at
`skip=0, limit=10`, and `skip ≥ N` gives the empty sequence. -/
theorem c8_paginate (db : List PlushTable) (skip limit : Nat) :
    get_plushies db skip limit = ((get_all_plushies db).drop skip).take limit ∧
    List.Pairwise (fun a b : PlushTable => a.id ≤ b.id) (get_plushies db skip limit) ∧
    (get_plushies db skip limit).length = min limit (db.length - skip) ∧
    (10 ≤ db.length → (get_plushies db 0 10).length = 10) ∧
    (db.length ≤ skip → get_plushies db skip limit = []) := by
  have hsorted : List.Pairwise (fun a b : PlushTable => a.id ≤ b.id) (sortById db) := by
    have h := @List.sorted_mergeSort PlushTable (fun a b : PlushTable => a.id ≤ b.id)
      (fun a b c hab hbc => by
        simp only [decide_eq_true_eq] at *
        omega)
      (fun a b => by
        simp only [Bool.or_eq_true, decide_eq_true_eq]
        omega)
      db
    exact h.imp fun hab => by simpa using hab
  have hlen : ∀ sk lim : Nat, (get_plushies db sk lim).length = min lim (db.length - sk) := by
    intro sk lim
    show (((sortById db).drop sk).take lim).length = _
    unfold sortById
    rw [List.length_take, List.length_drop, (List.mergeSort_perm db _).length_eq]
  refine ⟨rfl,
    hsorted.sublist ((List.take_sublist _ _).trans (List.drop_sublist _ _)),
    hlen skip limit, ?_, ?_⟩
  · intro h10
    rw [hlen 0 10]
    omega
  · intro hsk
    refine List.length_eq_zero.mp ?_
    rw [hlen skip limit]
    omega

/-- C8 witness: a concrete ten-record store returns exactly ten records at
`skip=0, limit=10` and nothing once `skip` reaches the total. -/
theorem c8_paginate_witness :
    (get_plushies ((List.range 10).map fun i => ⟨i, "c", "v", "s", 2000⟩) 0 10).length
        = 10 ∧
    get_plushies ((List.range 10).map fun i => ⟨i, "c", "v", "s", 2000⟩) 12 10 = [] := by
  constructor
  · exact (c8_paginate ((List.range 10).map fun i => ⟨i, "c", "v", "s", 2000⟩)
      12 10).2.2.2.1 (by simp)
  · exact (c8_paginate ((List.range 10).map fun i => ⟨i, "c", "v", "s", 2000⟩)
      12 10).2.2.2.2 (by simp)

/-! ## Claim C9 -/

/-- C9: the single-item lookup yields `404 "Plush not found!"` exactly when
no record carries the requested identity; any record it returns carries the
requested identity and is in the store, and with pairwise-distinct
identities the record carrying the identity is returned. -/
theorem c9_get_plush (db : List PlushTable) (plush_id : Nat) :
    (get_plush db plush_id = .error (404, "Plush not found!") ↔
      ∀ p ∈ db, p.id ≠ plush_id) ∧
    (∀ p, get_plush db plush_id = .ok p → p ∈ db ∧ p.id = plush_id) ∧
    ((db.map PlushTable.id).Nodup →
      ∀ p ∈ db, p.id = plush_id → get_plush db plush_id = .ok p) := by
  refine ⟨?_, ?_, ?_⟩
  · unfold get_plush
    cases hfind : db.find? (fun p => p.id == plush_id) with
    | none =>
      refine iff_of_true rfl fun p hp he => ?_
      exact (List.find?_eq_none.mp hfind p hp) (by simp [he])
    | some u =>
      refine iff_of_false (fun h => Except.noConfusion h) fun hall => ?_
      exact hall u (List.mem_of_find?_eq_some hfind)
        (by simpa using List.find?_some hfind)
  · intro p hp
    unfold get_plush at hp
    cases hfind : db.find? (fun q => q.id == plush_id) with
    | none =>
      rw [hfind] at hp
      cases hp
    | some u =>
      rw [hfind] at hp
      cases hp
      exact ⟨List.mem_of_find?_eq_some hfind, by simpa using List.find?_some hfind⟩
  · intro hnd p hp he
    unfold get_plush
    have hfind := find?_eq_some_of_nodup_map PlushTable.id db hnd p hp
    rw [he] at hfind
    rw [hfind]

/-- C9 witness: a concrete store where an absent identity yields the 404 and
a present identity returns its record. -/
theorem c9_get_plush_witness :
    get_plush [⟨3, "a", "b", "c", 1⟩] 9 = .error (404, "Plush not found!") ∧
    get_plush [⟨3, "a", "b", "c", 1⟩] 3 = .ok ⟨3, "a", "b", "c", 1⟩ := by
  constructor
  · exact (c9_get_plush [⟨3, "a", "b", "c", 1⟩] 9).1.mpr (by decide)
  · exact (c9_get_plush [⟨3, "a", "b", "c", 1⟩] 3).2.2 (by decide)
      ⟨3, "a", "b", "c", 1⟩ (by decide) rfl

/-! ## Claim C10 -/

/-- C10 counterexample: as stated ("the same result as omitting the
parameter"), the claim fails for `filter`, because the envelope echoes the
supplied filters: an empty list is echoed back as `[]`, not as the omitted
parameter's `null`. -/
theorem c10_filter_echo_counterexample :
    filter_plushies [] (some []) none none none none 0 10
      ≠ filter_plushies [] none none none none none 0 10 := by
  intro h
  exact Option.noConfusion
    (congrArg FilterEcho.characters (congrArg FilterEnvelope.filters h))

/-- C10 (amended): falsy-but-present parameters are treated as absent by
every predicate guard: a supplied empty string gives a search envelope
identical to the omitted parameter's, and a supplied empty list gives a
filter envelope with identical results and pagination metadata (every item
passes, rather than none as an empty membership test would admit) — only the
echoed `filters` field of the filter envelope records the supplied empty
list. -/
theorem c10_falsy_params_absent (db : List PlushTable) (q c v s : Option String)
    (vs ss : Option (List String)) (cs : Option (List String)) (mn mx : Option Int)
    (skip limit : Int) :
    search_plushies db (some "") c v s skip limit
        = search_plushies db none c v s skip limit ∧
    search_plushies db q (some "") v s skip limit
        = search_plushies db q none v s skip limit ∧
    search_plushies db q c (some "") s skip limit
        = search_plushies db q c none s skip limit ∧
    search_plushies db q c v (some "") skip limit
        = search_plushies db q c v none skip limit ∧
    (filter_plushies db (some []) vs ss mn mx skip limit).results
        = (filter_plushies db none vs ss mn mx skip limit).results ∧
    (filter_plushies db (some []) vs ss mn mx skip limit).total_pages
        = (filter_plushies db none vs ss mn mx skip limit).total_pages ∧
    (filter_plushies db (some []) vs ss mn mx skip limit).current_page
        = (filter_plushies db none vs ss mn mx skip limit).current_page ∧
    (filter_plushies db cs (some []) ss mn mx skip limit).results
        = (filter_plushies db cs none ss mn mx skip limit).results ∧
    (filter_plushies db cs (some []) ss mn mx skip limit).total_pages
        = (filter_plushies db cs none ss mn mx skip limit).total_pages ∧
    (filter_plushies db cs (some []) ss mn mx skip limit).current_page
        = (filter_plushies db cs none ss mn mx skip limit).current_page ∧
    (filter_plushies db cs vs (some []) mn mx skip limit).results
        = (filter_plushies db cs vs none mn mx skip limit).results ∧
    (filter_plushies db cs vs (some []) mn mx skip limit).total_pages
        = (filter_plushies db cs vs none mn mx skip limit).total_pages ∧
    (filter_plushies db cs vs (some []) mn mx skip limit).current_page
        = (filter_plushies db cs vs none mn mx skip limit).current_page :=
  ⟨rfl, rfl, rfl, rfl, rfl, rfl, rfl, rfl, rfl, rfl, rfl, rfl, rfl⟩

end PlushDex
